import Mathlib

/-!
Shallow embedding of the atom/molecule signal-matching engine of the
`ai-trading-assistant` repository (primary variant: `src/unnamed/part_003`,
"app.js ─ Demo1"), together with theorems settling the specification
claims.

JavaScript numbers are modelled as rationals (`ℚ`); the values flowing
through the matching arithmetic are small integers and percentage
thresholds, for which rational arithmetic is exact.  A JavaScript value
that may be `undefined` is modelled as an `Option`.  JavaScript string
primitives (`trim`, `toUpperCase` on ASCII, `split(',')`, `parseFloat`)
are modelled by structurally recursive functions over the character list
of the string.
-/

/-- Model of JavaScript `String.prototype.trim`: drop leading and trailing
whitespace. -/
def jsTrim (s : String) : String :=
  ⟨((s.data.dropWhile Char.isWhitespace).reverse.dropWhile Char.isWhitespace).reverse⟩

/-- Model of JavaScript `String.prototype.toUpperCase` on its ASCII
behaviour (`Char.toUpper` upcases exactly the ASCII letters). -/
def jsToUpperCase (s : String) : String :=
  ⟨s.data.map Char.toUpper⟩

/-- Splitting a character list at every `','`, as `split(',')` does;
`split` never drops a field, so the empty string yields `[""]`. -/
def splitCommaChars : List Char → List (List Char)
  | [] => [[]]
  | c :: rest =>
      if c = ',' then [] :: splitCommaChars rest
      else
        match splitCommaChars rest with
        | [] => [[c]]
        | g :: gs => (c :: g) :: gs

/-- Model of JavaScript `String.prototype.split(',')`. -/
def jsSplitComma (s : String) : List String :=
  (splitCommaChars s.data).map (fun cs => ⟨cs⟩)

/-- Decimal digit accumulator used by the `parseFloat` model. -/
def digitsToNat (ds : List Char) : Nat :=
  ds.foldl (fun n c => 10 * n + (c.toNat - 48)) 0

/-- Model of JavaScript `parseFloat` on decimal literals: skip leading
whitespace, optional sign, longest run of digits, optional `.` and
fraction digits; `none` models `NaN` (no digits at all).  Exponent
notation, which never occurs in the sheet's threshold cells, is not
modelled. -/
def parseFloatQ (s : String) : Option ℚ :=
  let cs := s.data.dropWhile Char.isWhitespace
  let signCs : Int × List Char :=
    match cs with
    | '-' :: rest => (-1, rest)
    | '+' :: rest => (1, rest)
    | _ => (1, cs)
  let intDs := signCs.2.takeWhile Char.isDigit
  let rest1 := signCs.2.dropWhile Char.isDigit
  let fracDs : List Char :=
    match rest1 with
    | '.' :: rest => rest.takeWhile Char.isDigit
    | _ => []
  if intDs.isEmpty ∧ fracDs.isEmpty then none
  else
    some (mkRat
      (signCs.1 * (digitsToNat intDs * 10 ^ fracDs.length + digitsToNat fracDs))
      (10 ^ fracDs.length))

/-- A one-minute market bar as returned by `getAlpacaBar` and consumed by
`scanTick`: `o` = open (`bar.o`), `c` = close (`bar.c`), `v` = volume
(`bar.v`). -/
structure Bar where
  o : ℚ
  c : ℚ
  v : ℚ
deriving DecidableEq

/-- A molecule record as built by `loadLogicDB` in `part_003`
(`{id, name, cat, atoms, threshold, notes}`).  Fields that may be
`undefined` on short sheet rows are `Option String`; `atoms` is always a
list (`r[3]?.split(',').map(trim)||[]` always yields an array) and
`threshold` is always a number (`parseFloat(r[4])||80`). -/
structure Molecule where
  id : Option String
  name : Option String
  cat : Option String
  atoms : List String
  threshold : ℚ
  notes : Option String
deriving DecidableEq

/-- A prediction record as pushed by `scanTick`
(`{id:..., ticker:sym, molecule:mol.id, entry:bar.c, time:...}`); the
wall-clock `id`/`time` fields are external to the matching logic and are
not modelled. -/
structure Prediction where
  ticker : String
  molecule : Option String
  entry : ℚ
deriving DecidableEq

/-- The atom-detection step of `scanTick` (`part_003` lines 151-155):

    const detected = [];
    if(bar.c > bar.o) detected.push('TRG-008');
    if(bar.v > 50000) detected.push('TRG-003');
    if(Math.random()<0.3) detected.push('STR-003');

The value drawn from `Math.random()` on this tick is made explicit as the
`rand` argument. -/
def detectAtoms (bar : Bar) (rand : ℚ) : List String :=
  let d0 : List String := []
  let d1 := if bar.c > bar.o then d0 ++ ["TRG-008"] else d0
  let d2 := if bar.v > 50000 then d1 ++ ["TRG-003"] else d1
  if rand < 3/10 then d2 ++ ["STR-003"] else d2

/-- `mol.atoms.filter(a=>detected.includes(a))` from `scanTick`. -/
def matchedAtoms (mol : Molecule) (detected : List String) : List String :=
  mol.atoms.filter (fun a => detected.contains a)

/-- The molecule-match condition of `scanTick`:
`match.length >= mol.atoms.length * mol.threshold/100`. -/
def molMatches (mol : Molecule) (detected : List String) : Bool :=
  decide (((matchedAtoms mol detected).length : ℚ) ≥
    (mol.atoms.length : ℚ) * mol.threshold / 100)

/-- The match ratio of the specification, computed from the code's
`match` list: `|present| / |requiredAtoms(m)| * 100`. -/
def ratioOf (mol : Molecule) (detected : List String) : ℚ :=
  ((matchedAtoms mol detected).length : ℚ) / (mol.atoms.length : ℚ) * 100

/-- The prediction object `scanTick` pushes for a matching molecule. -/
def mkPrediction (sym : String) (mol : Molecule) (entry : ℚ) : Prediction :=
  { ticker := sym, molecule := mol.id, entry := entry }

/-- The `molecules.forEach` matching loop of `scanTick` for one symbol:
each molecule whose condition holds pushes one prediction, in registry
order. -/
def scanMolecules (mols : List Molecule) (sym : String) (entry : ℚ)
    (detected : List String) : List Prediction :=
  mols.foldl
    (fun acc mol =>
      if molMatches mol detected then acc ++ [mkPrediction sym mol entry]
      else acc)
    []

/-- The per-symbol body of `scanTick`: fetch the symbol's bar (`none`
models a failed fetch, which the source skips with `continue`), detect
atoms, and run the molecule matcher. -/
def symScan (mols : List Molecule) (bars : String → Option Bar)
    (rand : String → ℚ) (sym : String) : List Prediction :=
  match bars sym with
  | none => []
  | some bar => scanMolecules mols sym bar.c (detectAtoms bar (rand sym))

/-- The full per-tick scan loop of `scanTick` over the watchlist; all
predictions accumulate into one list (`predictions.push`). -/
def scanTick (watch : List String) (mols : List Molecule)
    (bars : String → Option Bar) (rand : String → ℚ) : List Prediction :=
  watch.foldl
    (fun acc sym =>
      match bars sym with
      | none => acc
      | some bar =>
          acc ++ scanMolecules mols sym bar.c (detectAtoms bar (rand sym)))
    []

/-- `r[3]?.split(',').map(s=>s.trim())||[]` from `loadLogicDB`: a missing
cell yields the empty list, otherwise the cell is split on commas and
each piece trimmed. -/
def splitAtomsCell : Option String → List String
  | none => []
  | some s => (jsSplitComma s).map jsTrim

/-- `parseFloat(r[4])||80` from `loadLogicDB`: a missing cell, a
non-numeric cell (`NaN`) and a zero value are all falsy and default
to 80. -/
def thresholdCell (cell : Option String) : ℚ :=
  match cell.bind parseFloatQ with
  | none => 80
  | some x => if x = 0 then 80 else x

/-- One row of `Molecule_DB!A2:F` mapped to a molecule by `loadLogicDB`
(`part_003` lines 77-80); absent trailing cells are `undefined` in the
source and `none` here. -/
def molOfRow (r : List String) : Molecule :=
  { id := r.get? 0
    name := r.get? 1
    cat := r.get? 2
    atoms := splitAtomsCell (r.get? 3)
    threshold := thresholdCell (r.get? 4)
    notes := r.get? 5 }

/-- The molecule-loading step of `loadLogicDB`: every row is mapped, none
is rejected. -/
def loadMolecules (rows : List (List String)) : List Molecule :=
  rows.map molOfRow

/-- An atom record as built by `loadLogicDB`
(`{id, name, desc, output, cat, ref}`). -/
structure AtomRow where
  id : Option String
  name : Option String
  desc : Option String
  output : Option String
  cat : Option String
  ref : Option String
deriving DecidableEq

/-- One row of `Atom_DB!A2:F` mapped to an atom record by `loadLogicDB`. -/
def atomOfRow (r : List String) : AtomRow :=
  { id := r.get? 0
    name := r.get? 1
    desc := r.get? 2
    output := r.get? 3
    cat := r.get? 4
    ref := r.get? 5 }

/-- The atom-loading step of `loadLogicDB`. -/
def loadAtoms (rows : List (List String)) : List AtomRow :=
  rows.map atomOfRow

/-- The watchlist symbol normalization of the `#add-sym` handler:
`$('#sym-input').value.toUpperCase().trim()`. -/
def normalizeSym (s : String) : String :=
  jsTrim (jsToUpperCase s)

/-- The `#add-sym` click handler of `part_003` (lines 182-190): push the
normalized symbol only when it is non-empty (truthy), not yet present and
the watchlist holds fewer than 10 symbols; otherwise leave the watchlist
unchanged. -/
def addSym (wl : List String) (input : String) : List String :=
  let val := normalizeSym input
  if val ≠ "" ∧ val ∉ wl ∧ wl.length < 10 then wl ++ [val] else wl

/-- A molecule value as the source builds literal molecule objects
(demo data), with only the matching-relevant fields populated. -/
def mkMol (id : Option String) (atoms : List String) (thr : ℚ) : Molecule :=
  { id := id, name := none, cat := none, atoms := atoms, threshold := thr,
    notes := none }

/-- An observation as in the specification's scenario:
`{ticker, open, close, volume}`. -/
structure Obs where
  ticker : String
  o : ℚ
  c : ℚ
  v : ℚ
deriving DecidableEq

/-- Modelled from the spec: an atom definition of the Atom Registry
(§4.1), carrying the pure predicate the source never attaches to its atom
rows (the source's `scanTick` hardcodes its detection conditions
instead). -/
structure AtomSpec where
  id : String
  pred : Obs → Bool

/-- Modelled from the spec: the Atom Evaluator (§4.2) — "runs every
atom's predicate against the observation; collects IDs whose predicate
returns true"; absent from src, where detection is hardcoded in
`scanTick`. -/
def evaluateAtoms (reg : List AtomSpec) (obs : Obs) : List String :=
  (reg.filter (fun a => a.pred obs)).map (fun a => a.id)

/-- The atom registry of the specification's scenario (§8):
`STR-003` fires when close > open, `TRG-003` fires when
volume > 500000. -/
def scenarioAtoms : List AtomSpec :=
  [⟨"STR-003", fun obs => decide (obs.c > obs.o)⟩,
   ⟨"TRG-003", fun obs => decide (obs.v > 500000)⟩]

/-- The molecule of the specification's scenario: `LOGIC-EXP-004`
requires `{STR-003, TRG-003}` at threshold 100. -/
def scenarioMolecule : Molecule :=
  mkMol (some "LOGIC-EXP-004") ["STR-003", "TRG-003"] 100

/-- The observation of the specification's scenario. -/
def scenarioObs : Obs :=
  { ticker := "AAPL", o := 100, c := 105, v := 600000 }

/-- A pair of bar assignments agreeing on `AAPL` and differing on every
other symbol (a present bar with different fields vs a failed fetch),
and a constant draw assignment. -/
def wBars1 : String → Option Bar :=
  fun s => if s = "AAPL" then some ⟨1, 2, 60000⟩ else some ⟨3, 4, 70000⟩

/-- See `wBars1`. -/
def wBars2 : String → Option Bar :=
  fun s => if s = "AAPL" then some ⟨1, 2, 60000⟩ else none

/-- See `wBars1`. -/
def wRand : String → ℚ := fun _ => 1

/-- The watchlist invariant of the `#add-sym` handler: no duplicate
symbols, at most 10 entries, and every stored symbol is the upper-cased,
trimmed form of some user input. -/
def WatchInv (wl : List String) : Prop :=
  wl.Nodup ∧ wl.length ≤ 10 ∧ ∀ s ∈ wl, ∃ t, s = normalizeSym t

/-! ## Helper lemmas -/

theorem contains_eq_decide_mem (W : List String) (a : String) :
    W.contains a = decide (a ∈ W) := by
  by_cases h : a ∈ W <;> simp [h]

theorem matchedAtoms_toFinset (mol : Molecule) (W : List String) :
    (matchedAtoms mol W).toFinset = mol.atoms.toFinset ∩ W.toFinset := by
  ext x
  simp [matchedAtoms, List.mem_filter]

theorem matchedAtoms_length (mol : Molecule) (W : List String)
    (h2 : mol.atoms.Nodup) :
    (matchedAtoms mol W).length = (mol.atoms.toFinset ∩ W.toFinset).card := by
  have hnd : (matchedAtoms mol W).Nodup := h2.filter _
  rw [← matchedAtoms_toFinset, List.toFinset_card_of_nodup hnd]

/-! ## C1 -/

/-- C1: for a molecule with a non-empty, duplicate-free required-atom
list and any window `W` of fired atom IDs, the set of atoms `scanTick`
collects is exactly `requiredAtoms(m) ∩ W`, the spec ratio equals
`|present| / |requiredAtoms(m)| * 100` over that set, and the code's
emission condition `match.length >= mol.atoms.length * mol.threshold/100`
holds if and only if `ratio >= matchThreshold(m)`. -/
theorem scanTick_match_iff_ratio (mol : Molecule) (W : List String)
    (h1 : mol.atoms ≠ []) (h2 : mol.atoms.Nodup) :
    (matchedAtoms mol W).toFinset = mol.atoms.toFinset ∩ W.toFinset
  ∧ ratioOf mol W
      = ((mol.atoms.toFinset ∩ W.toFinset).card : ℚ)
          / (mol.atoms.toFinset.card : ℚ) * 100
  ∧ (molMatches mol W = true ↔ mol.threshold ≤ ratioOf mol W) := by
  have hnpos : (0 : ℚ) < (mol.atoms.length : ℚ) := by
    exact_mod_cast List.length_pos.mpr h1
  refine ⟨matchedAtoms_toFinset mol W, ?_, ?_⟩
  · rw [ratioOf, matchedAtoms_length mol W h2, List.toFinset_card_of_nodup h2]
  · rw [molMatches, decide_eq_true_iff, ge_iff_le,
      div_le_iff₀ (show (0 : ℚ) < 100 by norm_num), ratioOf,
      div_mul_eq_mul_div, le_div_iff₀ hnpos]
    constructor <;> intro h <;> linarith

/-- Witness for C1 at the molecule `{atoms: [A,B], threshold: 50}` and
window `[A]`. -/
theorem scanTick_match_iff_ratio_witness :
    ((mkMol none ["A", "B"] 50).atoms ≠ []
      ∧ (mkMol none ["A", "B"] 50).atoms.Nodup)
  ∧ ((matchedAtoms (mkMol none ["A", "B"] 50) ["A"]).toFinset
        = (mkMol none ["A", "B"] 50).atoms.toFinset ∩ (["A"] : List String).toFinset
    ∧ ratioOf (mkMol none ["A", "B"] 50) ["A"]
        = (((mkMol none ["A", "B"] 50).atoms.toFinset
              ∩ (["A"] : List String).toFinset).card : ℚ)
            / ((mkMol none ["A", "B"] 50).atoms.toFinset.card : ℚ) * 100
    ∧ (molMatches (mkMol none ["A", "B"] 50) ["A"] = true
        ↔ (mkMol none ["A", "B"] 50).threshold
            ≤ ratioOf (mkMol none ["A", "B"] 50) ["A"])) :=
  ⟨⟨by decide, by decide⟩,
    scanTick_match_iff_ratio (mkMol none ["A", "B"] 50) ["A"]
      (by decide) (by decide)⟩

/-! ## Characterization of the matching loops -/

theorem scanMolecules_foldl_acc (mols : List Molecule) (sym : String)
    (entry : ℚ) (det : List String) (acc : List Prediction) :
    mols.foldl
      (fun a mol =>
        if molMatches mol det then a ++ [mkPrediction sym mol entry] else a)
      acc
      = acc ++ scanMolecules mols sym entry det := by
  induction mols generalizing acc with
  | nil => simp [scanMolecules]
  | cons m ms ih =>
      simp only [scanMolecules, List.foldl_cons]
      rw [ih, ih (if molMatches m det then [] ++ [mkPrediction sym m entry] else [])]
      by_cases h : molMatches m det <;> simp [h]

theorem scanMolecules_cons (m : Molecule) (ms : List Molecule) (sym : String)
    (entry : ℚ) (det : List String) :
    scanMolecules (m :: ms) sym entry det
      = (if molMatches m det then [mkPrediction sym m entry] else [])
          ++ scanMolecules ms sym entry det := by
  have h := scanMolecules_foldl_acc ms sym entry det
    (if molMatches m det then [] ++ [mkPrediction sym m entry] else [])
  simp only [scanMolecules, List.foldl_cons]
  rw [h]
  by_cases hm : molMatches m det <;> simp [hm, scanMolecules]

theorem scanMolecules_eq_filter_map (mols : List Molecule) (sym : String)
    (entry : ℚ) (det : List String) :
    scanMolecules mols sym entry det
      = (mols.filter (fun m => molMatches m det)).map
          (fun m => mkPrediction sym m entry) := by
  induction mols with
  | nil => rfl
  | cons m ms ih =>
      rw [scanMolecules_cons, ih, List.filter_cons]
      by_cases h : molMatches m det <;> simp [h]

theorem ticker_of_mem_scanMolecules (mols : List Molecule) (sym : String)
    (entry : ℚ) (det : List String) (p : Prediction)
    (hp : p ∈ scanMolecules mols sym entry det) : p.ticker = sym := by
  rw [scanMolecules_eq_filter_map] at hp
  obtain ⟨m, _, rfl⟩ := List.mem_map.mp hp
  rfl

theorem scanTick_foldl_acc (watch : List String) (mols : List Molecule)
    (bars : String → Option Bar) (rand : String → ℚ)
    (acc : List Prediction) :
    watch.foldl
      (fun a sym =>
        match bars sym with
        | none => a
        | some bar =>
            a ++ scanMolecules mols sym bar.c (detectAtoms bar (rand sym)))
      acc
      = acc ++ scanTick watch mols bars rand := by
  induction watch generalizing acc with
  | nil => simp [scanTick]
  | cons s ws ih =>
      simp only [scanTick, List.foldl_cons]
      rw [ih]
      conv_rhs => rw [ih]
      cases bars s <;> simp

theorem scanTick_cons (s : String) (ws : List String) (mols : List Molecule)
    (bars : String → Option Bar) (rand : String → ℚ) :
    scanTick (s :: ws) mols bars rand
      = symScan mols bars rand s ++ scanTick ws mols bars rand := by
  cases hb : bars s with
  | none =>
      simp only [scanTick, List.foldl_cons, symScan, hb]
      simp
  | some bar =>
      have h := scanTick_foldl_acc ws mols bars rand
        (scanMolecules mols s bar.c (detectAtoms bar (rand s)))
      simp only [scanTick] at h
      simp only [scanTick, List.foldl_cons, symScan, hb, List.nil_append]
      simpa using h

theorem ticker_of_mem_symScan (mols : List Molecule)
    (bars : String → Option Bar) (rand : String → ℚ) (sym : String)
    (p : Prediction) (hp : p ∈ symScan mols bars rand sym) :
    p.ticker = sym := by
  unfold symScan at hp
  cases hb : bars sym with
  | none => rw [hb] at hp; simp at hp
  | some bar =>
      rw [hb] at hp
      exact ticker_of_mem_scanMolecules _ _ _ _ _ hp

/-! ## C7 -/

/-- C7: in one evaluation pass `scanTick`'s matching loop treats every
molecule independently — the emitted sequence is exactly the registry
filtered by each molecule's own match condition, mapped to its
prediction, so several molecules may match the same window, and the
output order is the registry's definition order (never re-sorted by
ratio); concretely, two molecules sharing a required atom both match the
same window in one pass. -/
theorem scanTick_registry_order (mols : List Molecule) (sym : String)
    (entry : ℚ) (det : List String) :
    scanMolecules mols sym entry det
      = (mols.filter (fun m => molMatches m det)).map
          (fun m => mkPrediction sym m entry)
  ∧ (scanMolecules
        [mkMol (some "M1") ["A"] 100, mkMol (some "M2") ["A"] 100]
        "T" 1 ["A"]).length = 2 := by
  refine ⟨scanMolecules_eq_filter_map mols sym entry det, ?_⟩
  rw [scanMolecules_eq_filter_map]
  have hm : molMatches (mkMol (some "M1") ["A"] 100) ["A"] = true := by
    rw [molMatches, decide_eq_true_iff]
    norm_num [matchedAtoms, mkMol]
  have hm2 : molMatches (mkMol (some "M2") ["A"] 100) ["A"] = true := by
    rw [molMatches, decide_eq_true_iff]
    norm_num [matchedAtoms, mkMol]
  simp [List.filter_cons, hm, hm2]

/-! ## C8 -/

/-- C8: the predictions `scanTick` produces for a ticker `X` depend only
on `X`'s own bar and random draw; changing any other ticker's data in
the same cycle leaves `X`'s predictions unchanged. -/
theorem scanTick_window_independence (watch : List String)
    (mols : List Molecule) (bars₁ bars₂ : String → Option Bar)
    (rand₁ rand₂ : String → ℚ) (X : String)
    (hb : bars₁ X = bars₂ X) (hr : rand₁ X = rand₂ X) :
    (scanTick watch mols bars₁ rand₁).filter (fun p => p.ticker == X)
      = (scanTick watch mols bars₂ rand₂).filter (fun p => p.ticker == X) := by
  induction watch with
  | nil => rfl
  | cons s ws ih =>
      rw [scanTick_cons, scanTick_cons, List.filter_append,
        List.filter_append, ih]
      congr 1
      by_cases hs : s = X
      · subst hs
        unfold symScan
        rw [hb, hr]
      · rw [List.filter_eq_nil_iff.mpr, List.filter_eq_nil_iff.mpr]
        · intro p hp
          have := ticker_of_mem_symScan mols bars₂ rand₂ s p hp
          simp [this, hs]
        · intro p hp
          have := ticker_of_mem_symScan mols bars₁ rand₁ s p hp
          simp [this, hs]

/-- Witness for C8 at a two-symbol watchlist whose `TSLA` data differs
between the two scans. -/
theorem scanTick_window_independence_witness :
    (wBars1 "AAPL" = wBars2 "AAPL" ∧ wRand "AAPL" = wRand "AAPL")
  ∧ (scanTick ["AAPL", "TSLA"] [mkMol (some "M1") ["TRG-003"] 100]
        wBars1 wRand).filter (fun p => p.ticker == "AAPL")
      = (scanTick ["AAPL", "TSLA"] [mkMol (some "M1") ["TRG-003"] 100]
          wBars2 wRand).filter (fun p => p.ticker == "AAPL") :=
  ⟨⟨by decide, rfl⟩,
    scanTick_window_independence ["AAPL", "TSLA"]
      [mkMol (some "M1") ["TRG-003"] 100] wBars1 wBars2 wRand wRand "AAPL"
      (by decide) rfl⟩

/-! ## C2 -/

/-- C2 (code bug): `scanTick`'s atom evaluation is not a function of the
observation and registry alone — at the bar (open 100, close 90, volume
1000) the `Math.random()` draw alone decides whether `STR-003` fires, so
two calls with the same observation differ; apart from `STR-003`, whose
firing is exactly `rand < 0.3`, the fired list is determined by the
observation. -/
theorem detect_random_draw_dependence :
    detectAtoms ⟨100, 90, 1000⟩ 0 = ["STR-003"]
  ∧ detectAtoms ⟨100, 90, 1000⟩ 1 = []
  ∧ detectAtoms ⟨100, 90, 1000⟩ 0 ≠ detectAtoms ⟨100, 90, 1000⟩ 1
  ∧ ∀ (bar : Bar) (r₁ r₂ : ℚ),
      (detectAtoms bar r₁).filter (fun a => a ≠ "STR-003")
        = (detectAtoms bar r₂).filter (fun a => a ≠ "STR-003") := by
  have h0 : detectAtoms ⟨100, 90, 1000⟩ 0 = ["STR-003"] := by
    norm_num [detectAtoms]
  have h1 : detectAtoms ⟨100, 90, 1000⟩ 1 = [] := by
    norm_num [detectAtoms]
  refine ⟨h0, h1, ?_, ?_⟩
  · rw [h0, h1]; simp
  · intro bar r₁ r₂
    by_cases hc : bar.c > bar.o <;> by_cases hv : bar.v > 50000 <;>
      by_cases hr1 : r₁ < 3/10 <;> by_cases hr2 : r₂ < 3/10 <;>
      simp [detectAtoms, hc, hv, hr1, hr2]

/-! ## C3 -/

/-- C3 counterexample: loading the molecule row
`[M-BAD, x, cat, NOPE, 80]` against an atom registry holding only
`STR-003` succeeds and registers one molecule requiring the unknown atom
`NOPE` — no `ConfigError`, no all-or-nothing rejection. -/
theorem loadLogicDB_no_rejection_counterexample :
    (loadMolecules [["M-BAD", "x", "cat", "NOPE", "80"]]).length = 1
  ∧ (∀ m ∈ loadMolecules [["M-BAD", "x", "cat", "NOPE", "80"]],
        m.atoms = ["NOPE"] ∧ m.threshold = 80)
  ∧ (∀ a ∈ loadAtoms [["STR-003", "n", "d", "o", "Structural", "r"]],
        a.id ≠ some "NOPE") := by
  decide

/-- C3 amended: `loadLogicDB` performs no validation at all — it
registers exactly one molecule per sheet row unconditionally, including
rows referencing unknown atom IDs, rows with an empty required-atom
list, and rows whose threshold lies outside (0,100]. -/
theorem loadLogicDB_registers_every_row (rows : List (List String)) :
    (loadMolecules rows).length = rows.length := by
  simp [loadMolecules]

/-! ## C4 -/

/-- C4 counterexample: the loader accepts the row `[M1, n, c]` whose
required-atom cell is missing, producing a molecule with an empty atom
list, and that loaded molecule matches the empty window
(`0 >= 0 * 80/100`), emitting a prediction. -/
theorem emptyWindow_match_counterexample :
    loadMolecules [["M1", "n", "c"]] = [molOfRow ["M1", "n", "c"]]
  ∧ (molOfRow ["M1", "n", "c"]).atoms = []
  ∧ molMatches (molOfRow ["M1", "n", "c"]) [] = true
  ∧ scanMolecules (loadMolecules [["M1", "n", "c"]]) "AAPL" 100 []
      = [{ ticker := "AAPL", molecule := some "M1", entry := 100 }] := by
  have ha : (molOfRow ["M1", "n", "c"]).atoms = [] := by decide
  have ht : (molOfRow ["M1", "n", "c"]).threshold = 80 := by decide
  have hm : molMatches (molOfRow ["M1", "n", "c"]) [] = true := by
    rw [molMatches, decide_eq_true_iff, matchedAtoms, ha, ht]
    norm_num
  refine ⟨rfl, by decide, hm, ?_⟩
  show scanMolecules [molOfRow ["M1", "n", "c"]] "AAPL" 100 [] = _
  rw [scanMolecules_cons, hm]
  simp [scanMolecules, mkPrediction]
  decide

/-- C4 amended: for an empty window no molecule with a non-empty
required-atom list and a positive threshold matches; the hypotheses are
necessary because `loadLogicDB` also registers molecules violating
them. -/
theorem emptyWindow_no_match (mol : Molecule) (h1 : mol.atoms ≠ [])
    (h2 : 0 < mol.threshold) :
    molMatches mol [] = false := by
  have hn : (0 : ℚ) < (mol.atoms.length : ℚ) := by
    exact_mod_cast List.length_pos.mpr h1
  rw [molMatches, decide_eq_false_iff_not]
  have hm : matchedAtoms mol [] = [] := by simp [matchedAtoms]
  rw [hm]
  simp only [List.length_nil, Nat.cast_zero, ge_iff_le, not_le]
  exact div_pos (mul_pos hn h2) (by norm_num)

/-- Witness for the amended C4 at the molecule `{atoms: [A],
threshold: 80}`. -/
theorem emptyWindow_no_match_witness :
    ((mkMol none ["A"] 80).atoms ≠ [] ∧ 0 < (mkMol none ["A"] 80).threshold)
  ∧ molMatches (mkMol none ["A"] 80) [] = false :=
  ⟨⟨by decide, by decide⟩,
    emptyWindow_no_match (mkMol none ["A"] 80) (by decide) (by decide)⟩

/-! ## C5 -/

/-- C5: a molecule requiring `{A,B}` at threshold 50 matches every
window containing exactly one of `A`,`B`, matches no window containing
neither, and a molecule requiring `{A,B,C}` at threshold 100 matches a
window only when all of `A`,`B`,`C` are present. -/
theorem threshold_boundary_cases (A B C : String) (W : List String)
    (hAB : A ≠ B) (hAC : A ≠ C) (hBC : B ≠ C) :
    (((A ∈ W ∧ B ∉ W) ∨ (A ∉ W ∧ B ∈ W))
        → molMatches (mkMol none [A, B] 50) W = true)
  ∧ ((A ∉ W ∧ B ∉ W) → molMatches (mkMol none [A, B] 50) W = false)
  ∧ (molMatches (mkMol none [A, B, C] 100) W = true
        → A ∈ W ∧ B ∈ W ∧ C ∈ W) := by
  refine ⟨?_, ?_, ?_⟩
  · intro h
    rcases h with ⟨hA, hB⟩ | ⟨hA, hB⟩ <;>
      simp [molMatches, matchedAtoms, mkMol, contains_eq_decide_mem,
        hA, hB] <;>
      norm_num
  · intro h
    obtain ⟨hA, hB⟩ := h
    simp [molMatches, matchedAtoms, mkMol, contains_eq_decide_mem, hA, hB]
  · intro h
    rw [molMatches, decide_eq_true_iff] at h
    by_cases hA : A ∈ W <;> by_cases hB : B ∈ W <;> by_cases hC : C ∈ W <;>
      simp [matchedAtoms, mkMol, contains_eq_decide_mem, hA, hB, hC]
        at h ⊢ <;>
      norm_num at h

/-- Witness for C5 at `A`,`B`,`C` and the window `[A]`. -/
theorem threshold_boundary_cases_witness :
    (("A" : String) ≠ "B" ∧ ("A" : String) ≠ "C" ∧ ("B" : String) ≠ "C")
  ∧ (((("A" ∈ (["A"] : List String) ∧ "B" ∉ (["A"] : List String))
        ∨ ("A" ∉ (["A"] : List String) ∧ "B" ∈ (["A"] : List String)))
        → molMatches (mkMol none ["A", "B"] 50) ["A"] = true)
    ∧ (("A" ∉ (["A"] : List String) ∧ "B" ∉ (["A"] : List String))
        → molMatches (mkMol none ["A", "B"] 50) ["A"] = false)
    ∧ (molMatches (mkMol none ["A", "B", "C"] 100) ["A"] = true
        → "A" ∈ (["A"] : List String) ∧ "B" ∈ (["A"] : List String)
            ∧ "C" ∈ (["A"] : List String))) :=
  ⟨⟨by decide, by decide, by decide⟩,
    threshold_boundary_cases "A" "B" "C" ["A"]
      (by decide) (by decide) (by decide)⟩

/-! ## C6 -/

/-- C6 (spec-modelled evaluator, code matcher): with atoms `STR-003`
(close > open) and `TRG-003` (volume > 500000) and molecule
`LOGIC-EXP-004` requiring both at threshold 100, the observation
`{ticker: AAPL, open: 100, close: 105, volume: 600000}` fires both
atoms, the molecule matches with ratio 100, and exactly one prediction
is emitted for `AAPL`. -/
theorem scenario_full_match :
    evaluateAtoms scenarioAtoms scenarioObs = ["STR-003", "TRG-003"]
  ∧ ratioOf scenarioMolecule (evaluateAtoms scenarioAtoms scenarioObs) = 100
  ∧ molMatches scenarioMolecule (evaluateAtoms scenarioAtoms scenarioObs)
      = true
  ∧ scanMolecules [scenarioMolecule] "AAPL" 105
      (evaluateAtoms scenarioAtoms scenarioObs)
      = [{ ticker := "AAPL", molecule := some "LOGIC-EXP-004",
           entry := 105 }] := by
  have he : evaluateAtoms scenarioAtoms scenarioObs
      = ["STR-003", "TRG-003"] := by decide
  have hma : matchedAtoms scenarioMolecule ["STR-003", "TRG-003"]
      = ["STR-003", "TRG-003"] := by decide
  have hlen : (scenarioMolecule.atoms.length : ℚ) = 2 := by
    norm_num [scenarioMolecule, mkMol]
  have hthr : scenarioMolecule.threshold = 100 := by decide
  have hm : molMatches scenarioMolecule ["STR-003", "TRG-003"] = true := by
    rw [molMatches, decide_eq_true_iff, hma, hlen, hthr]
    norm_num
  refine ⟨he, ?_, ?_, ?_⟩
  · rw [he, ratioOf, hma, hlen]
    norm_num
  · rw [he, hm]
  · rw [he, scanMolecules_cons, hm]
    simp [scanMolecules, mkPrediction]
    decide

/-! ## C9 -/

/-- C9: the `#add-sym` handler preserves the watchlist invariant, and an
add whose input is empty, already present (after normalization), or
arriving when the list already holds 10 symbols leaves the watchlist
unchanged. -/
theorem addSym_preserves_invariant (wl : List String) (input : String)
    (h : WatchInv wl) :
    WatchInv (addSym wl input)
  ∧ ((input = "" ∨ normalizeSym input ∈ wl ∨ 10 ≤ wl.length)
      → addSym wl input = wl) := by
  obtain ⟨hnd, hlen, hall⟩ := h
  constructor
  · unfold addSym
    by_cases hc : normalizeSym input ≠ "" ∧ normalizeSym input ∉ wl
        ∧ wl.length < 10
    · rw [if_pos hc]
      obtain ⟨hne, hnotin, hlt⟩ := hc
      refine ⟨?_, ?_, ?_⟩
      · simp [List.nodup_append, hnd, hnotin]
      · simp only [List.length_append, List.length_singleton]
        omega
      · intro s hs
        rcases List.mem_append.mp hs with hs | hs
        · exact hall s hs
        · simp at hs
          exact ⟨input, hs⟩
    · rw [if_neg hc]
      exact ⟨hnd, hlen, hall⟩
  · intro hcase
    unfold addSym
    rw [if_neg]
    intro hc
    obtain ⟨hne, hnotin, hlt⟩ := hc
    rcases hcase with h0 | h0 | h0
    · rw [h0] at hne
      exact hne (by decide)
    · exact hnotin h0
    · omega

/-- Witness for C9: adding `" tsla"` to the singleton list `[AAPL]`. -/
theorem addSym_preserves_invariant_witness :
    WatchInv ["AAPL"]
  ∧ (WatchInv (addSym ["AAPL"] " tsla")
    ∧ ((" tsla" = "" ∨ normalizeSym " tsla" ∈ (["AAPL"] : List String)
          ∨ 10 ≤ (["AAPL"] : List String).length)
        → addSym ["AAPL"] " tsla" = ["AAPL"])) := by
  have h : WatchInv ["AAPL"] := by
    refine ⟨by decide, by decide, ?_⟩
    intro s hs
    simp at hs
    exact ⟨"AAPL", by rw [hs]; decide⟩
  exact ⟨h, addSym_preserves_invariant ["AAPL"] " tsla" h⟩

/-! ## C10 -/

/-- C10: in `loadLogicDB`'s row mapping, a missing, non-numeric or zero
threshold cell yields `matchThreshold` 80, and a missing required-atoms
cell yields the empty required-atom list; the mapping is total, so load
never fails on these row shapes. -/
theorem molOfRow_defaults (r : List String) :
    ((r.get? 4 = none
        ∨ (∃ s, r.get? 4 = some s ∧ parseFloatQ s = none)
        ∨ (∃ s, r.get? 4 = some s ∧ parseFloatQ s = some 0))
      → (molOfRow r).threshold = 80)
  ∧ (r.get? 3 = none → (molOfRow r).atoms = []) := by
  constructor
  · intro hcase
    show thresholdCell (r.get? 4) = 80
    rcases hcase with h0 | ⟨s, hs, hp⟩ | ⟨s, hs, hp⟩
    · rw [h0]
      rfl
    · rw [hs]
      simp [thresholdCell, hp]
    · rw [hs]
      simp [thresholdCell, hp]
  · intro h0
    show splitAtomsCell (r.get? 3) = []
    rw [h0]
    rfl

/-- Witness for C10 at a short row (both cells missing), a non-numeric
threshold cell, and a zero threshold cell. -/
theorem molOfRow_defaults_witness :
    (molOfRow ["M1", "n", "c"]).threshold = 80
  ∧ (molOfRow ["M1", "n", "c"]).atoms = []
  ∧ (molOfRow ["M2", "n", "c", "A", "abc"]).threshold = 80
  ∧ (molOfRow ["M3", "n", "c", "A", "0"]).threshold = 80 :=
  ⟨(molOfRow_defaults ["M1", "n", "c"]).1 (Or.inl (by decide)),
   (molOfRow_defaults ["M1", "n", "c"]).2 (by decide),
   (molOfRow_defaults ["M2", "n", "c", "A", "abc"]).1
     (Or.inr (Or.inl ⟨"abc", by decide, by decide⟩)),
   (molOfRow_defaults ["M3", "n", "c", "A", "0"]).1
     (Or.inr (Or.inr ⟨"0", by decide, by decide⟩))⟩
